import Mathlib

/-!
# ttk: PersistenceDiagramDistanceMatrix configuration surface and MetricDistortion formulas

A shallow embedding of

* `core/base/persistenceDiagramDistanceMatrix/PersistenceDiagramDistanceMatrix.h`
  (the protected configuration block and its inline setters), and
* `core/base/metricDistortion/MetricDistortion.h`
  (surface curvature / distance / area evaluators and their helpers).

C++ `double` is embedded as IEEE 754 binary64 with round-to-nearest, ties-to-even
(`ttk.Double`): the five basic operations `+ - * / sqrt` are correctly rounded, as the
standard requires, and every expression is evaluated operation by operation (no contraction
into fused multiply-add). The `<cmath>` functions `std::pow` and `std::acos` are not pinned
down bit-for-bit by any standard, so they are taken as a parameter (`ttk.Libm`).
Reading a `std::vector` out of bounds is undefined behaviour; the embedding returns `none`.
A loop that writes position `i` of an output at iteration `i` is embedded as a map over the
positions; `dim`, declared `unsigned int`, is the size modulo `2^32`, and the other loops,
whose `unsigned int` counter runs up to a `size()`, are embedded for sizes below `2^32`.
-/

namespace ttk

/-! ## IEEE 754 binary64 -/

/-- A binary64 datum. `fin neg m e` denotes `(-1)^neg * m * 2^e`; all NaNs are identified.
The operations below return finite data in the encoding of the format: `m < 2^53`,
`-1074 ≤ e ≤ 971`, and `2^52 ≤ m` unless `e = -1074` (zeros and subnormals). -/
inductive Double where
  | nan : Double
  | inf (neg : Bool) : Double
  | fin (neg : Bool) (m : Nat) (e : Int) : Double
  deriving DecidableEq, Repr

namespace Double

/-- Signed zero. -/
def zero (neg : Bool) : Double := .fin neg 0 (-1074)

/-- Predicate `std::isnan`. -/
def isNaN : Double → Bool
  | .nan => true
  | _ => false

/-- Predicate `std::isfinite`. -/
def isFinite : Double → Bool
  | .fin _ _ _ => true
  | _ => false

/-- Number of binary digits of `n`, computed with fuel `k` (enough as soon as `n < 2^k`). -/
def bitLenAux : Nat → Nat → Nat
  | 0, _ => 0
  | k + 1, n => if n = 0 then 0 else bitLenAux k (n / 2) + 1

/-- Number of binary digits of `n` (`0` for `0`). -/
def bitLen (n : Nat) : Nat := bitLenAux n n

/-- Round the exact magnitude `(M + δ) * 2^E` to binary64, nearest with ties to even, where
`δ = 0` when `sticky` is false and `0 < δ < 1` when it is true. Callers that set `sticky`
supply at least 55 significant bits in `M`. -/
def round (neg : Bool) (M : Nat) (E : Int) (sticky : Bool) : Double :=
  if M = 0 then zero neg
  else
    let len : Int := ((bitLen M : Nat) : Int)
    let e0 : Int := max (E + len - 53) (-1074)
    let shift : Int := e0 - E
    if shift ≤ 0 then
      if e0 > 971 then .inf neg else .fin neg (M * 2 ^ (-shift).toNat) e0
    else
      let k := shift.toNat
      let q := M / 2 ^ k
      let r := M % 2 ^ k
      let half := 2 ^ (k - 1)
      let up : Bool := decide (half < r) || (decide (r = half) && (sticky || decide (q % 2 = 1)))
      let q1 := if up then q + 1 else q
      let m := if q1 = 2 ^ 53 then 2 ^ 52 else q1
      let e := if q1 = 2 ^ 53 then e0 + 1 else e0
      if e > 971 then .inf neg else .fin neg m e

/-- Unary minus. -/
def neg : Double → Double
  | .nan => .nan
  | .inf s => .inf (!s)
  | .fin s m e => .fin (!s) m e

/-- The signed integer `(-1)^s * m * 2^k`. -/
def signedScaled (s : Bool) (m : Nat) (k : Nat) : Int :=
  if s then -((m * 2 ^ k : Nat) : Int) else ((m * 2 ^ k : Nat) : Int)

/-- Operator `+` on `double`. -/
def add : Double → Double → Double
  | .nan, _ => .nan
  | _, .nan => .nan
  | .inf s, .inf t => if s = t then .inf s else .nan
  | .inf s, .fin _ _ _ => .inf s
  | .fin _ _ _, .inf t => .inf t
  | .fin s m e, .fin t n f =>
    let E := min e f
    let c : Int := signedScaled s m (e - E).toNat + signedScaled t n (f - E).toNat
    if c = 0 then zero (s && t) else round (decide (c < 0)) c.natAbs E false

/-- Operator `-` on `double`. -/
def sub (x y : Double) : Double := add x (neg y)

/-- Operator `*` on `double`. -/
def mul : Double → Double → Double
  | .nan, _ => .nan
  | _, .nan => .nan
  | .inf s, .inf t => .inf (xor s t)
  | .inf s, .fin t n _ => if n = 0 then .nan else .inf (xor s t)
  | .fin s m _, .inf t => if m = 0 then .nan else .inf (xor s t)
  | .fin s m e, .fin t n f => round (xor s t) (m * n) (e + f) false

/-- Round the exact quotient `n / d * 2^E` (with `0 < n`, `0 < d`) to binary64. -/
def roundQuot (neg : Bool) (n d : Nat) (E : Int) : Double :=
  let k := bitLen d + 56
  round neg (n * 2 ^ k / d) (E - (k : Int)) (decide (n * 2 ^ k % d ≠ 0))

/-- Operator `/` on `double`. -/
def div : Double → Double → Double
  | .nan, _ => .nan
  | _, .nan => .nan
  | .inf _, .inf _ => .nan
  | .inf s, .fin t _ _ => .inf (xor s t)
  | .fin s _ _, .inf t => zero (xor s t)
  | .fin s m e, .fin t n f =>
    if n = 0 then (if m = 0 then .nan else .inf (xor s t))
    else if m = 0 then zero (xor s t)
    else roundQuot (xor s t) m n (e - f)

/-- Integer square root by bisection on the bits: with `2^k` at least the root, `isqrtAux k n 0`
is the largest `r` with `r * r ≤ n`. -/
def isqrtAux : Nat → Nat → Nat → Nat
  | 0, _, r => r
  | k + 1, n, r => if (r + 2 ^ k) * (r + 2 ^ k) ≤ n then isqrtAux k n (r + 2 ^ k) else isqrtAux k n r

/-- Integer square root. -/
def isqrt (n : Nat) : Nat := isqrtAux (bitLen n / 2 + 1) n 0

/-- Function `std::sqrt` on `double` (correctly rounded). -/
def sqrt : Double → Double
  | .nan => .nan
  | .inf s => if s then .nan else .inf false
  | .fin s m e =>
    if m = 0 then zero s
    else if s then .nan
    else
      let k : Nat := if (e - 110) % 2 = 0 then 110 else 111
      let M := m * 2 ^ k
      let r := isqrt M
      round false r ((e - (k : Int)) / 2) (decide (r * r ≠ M))

/-- Conversion of a non-negative integer to `double`. -/
def ofNat (n : Nat) : Double := round false n 0 false

/-- The `double` denoted by a non-negative decimal literal of value `n / d` (`0 < d`). -/
def ofRat (n d : Nat) : Double :=
  if n = 0 then zero false else roundQuot false n d 0

/-- Operator `<=` on `double` (false as soon as an operand is NaN). -/
def le : Double → Double → Bool
  | .nan, _ => false
  | _, .nan => false
  | .inf s, .inf t => s || !t
  | .inf s, .fin _ _ _ => s
  | .fin _ _ _, .inf t => !t
  | .fin s m e, .fin t n f =>
    let E := min e f
    decide (signedScaled s m (e - E).toNat ≤ signedScaled t n (f - E).toNat)

end Double

/-! ## `std::stoi` -/

/-- The two exceptions `std::stoi` throws. -/
inductive StdException where
  | invalid_argument
  | out_of_range
  deriving DecidableEq, Repr

/-- Function `isspace` in the "C" locale: space, `\t`, `\n`, `\v`, `\f`, `\r`. -/
def isspace (c : Char) : Bool :=
  c.toNat = 32 || (9 ≤ c.toNat && c.toNat ≤ 13)

/-- Function `isdigit`. -/
def isdigit (c : Char) : Bool :=
  48 ≤ c.toNat && c.toNat ≤ 57

/-- Leading white space is discarded by `strtol`. -/
def skipSpace : List Char → List Char
  | [] => []
  | c :: cs => if isspace c then skipSpace cs else c :: cs

/-- The digit loop of `strtol` in base 10: accumulate while the next character is a digit. -/
def strtolDigits (acc : Nat) : List Char → Nat
  | [] => acc
  | c :: cs => if isdigit c then strtolDigits (10 * acc + (c.toNat - 48)) cs else acc

/-- Function `std::stoi(str)` (`pos = nullptr`, `base = 10`): `strtol` on the characters, then
`std::invalid_argument` when no digit was consumed and `std::out_of_range` when the value does
not fit an `int`. Characters after the digits are ignored. -/
def stoi (str : String) : Except StdException Int :=
  let s := skipSpace str.data
  let negative : Bool := s.head? = some '-'
  let s := if s.head? = some '-' ∨ s.head? = some '+' then s.tail else s
  match s with
  | [] => .error .invalid_argument
  | c :: _ =>
    if isdigit c then
      let v : Int := if negative then -(strtolDigits 0 s : Int) else (strtolDigits 0 s : Int)
      if v < -2147483648 ∨ 2147483647 < v then .error .out_of_range else .ok v
    else .error .invalid_argument

/-! ## PersistenceDiagramDistanceMatrix -/

/-- Types declared in headers outside this development (`DataTypes.h`, `Auction.h`, `Debug.h`). -/
structure ExternalTypes where
  /-- Type `ttk::SimplexId`. -/
  SimplexId : Type
  /-- Type `ttk::CriticalType`. -/
  CriticalType : Type
  /-- C++ `float`. -/
  CFloat : Type
  /-- Type `BidderDiagram<double>`. -/
  BidderDiagram : Type
  /-- Type `GoodDiagram<double>`. -/
  GoodDiagram : Type
  /-- State of the base class `Debug`. -/
  Debug : Type

/-- Type `ttk::DiagramTuple`. -/
structure DiagramTuple (X : ExternalTypes) where
  t0 : X.SimplexId
  t1 : X.CriticalType
  t2 : X.SimplexId
  t3 : X.CriticalType
  t4 : Double
  t5 : X.SimplexId
  t6 : Double
  t7 : X.CFloat
  t8 : X.CFloat
  t9 : X.CFloat
  t10 : Double
  t11 : X.CFloat
  t12 : X.CFloat
  t13 : X.CFloat

/-- Type `ttk::MatchingTuple`. -/
structure MatchingTuple (X : ExternalTypes) where
  t0 : X.SimplexId
  t1 : X.SimplexId
  t2 : Double

/-- Type `std::array<T, 3>`. -/
structure Array3 (α : Type) where
  a0 : α
  a1 : α
  a2 : α
  deriving DecidableEq, Repr

/-- Data members of `ttk::PersistenceDiagramDistanceMatrix`, in declaration order. -/
structure PersistenceDiagramDistanceMatrix (X : ExternalTypes) where
  debug : X.Debug
  barycenter_inputs_reset_flag : Bool
  precision_criterion_ : Bool
  precision_max_ : Bool
  precision_min_ : Bool
  precision_sad_ : Bool
  forceUseOfAlgorithm_ : Bool
  deterministic_ : Bool
  wasserstein_ : Int
  geometrical_factor_ : Double
  deltaLim_ : Double
  UseDeltaLim_ : Bool
  distanceWritingOptions_ : Int
  lambda_ : Double
  k_ : Int
  numberOfInputs_ : Int
  use_progressive_ : Bool
  use_accelerated_ : Bool
  use_kmeanspp_ : Bool
  use_kdtree_ : Bool
  time_limit_ : Double
  epsilon_min_ : Double
  epsilon_ : Array3 Double
  cost_ : Double
  cost_min_ : Double
  cost_sad_ : Double
  cost_max_ : Double
  current_bidder_ids_min_ : List (List Int)
  current_bidder_ids_sad_ : List (List Int)
  current_bidder_ids_max_ : List (List Int)
  inputDiagramsMin_ : List (List (DiagramTuple X))
  inputDiagramsSaddle_ : List (List (DiagramTuple X))
  inputDiagramsMax_ : List (List (DiagramTuple X))
  original_dos : Array3 Bool
  do_min_ : Bool
  bidder_diagrams_min_ : List X.BidderDiagram
  current_bidder_diagrams_min_ : List X.BidderDiagram
  centroids_min_ : List X.GoodDiagram
  centroids_with_price_min_ : List X.GoodDiagram
  do_sad_ : Bool
  bidder_diagrams_saddle_ : List X.BidderDiagram
  current_bidder_diagrams_saddle_ : List X.BidderDiagram
  centroids_saddle_ : List X.GoodDiagram
  centroids_with_price_saddle_ : List X.GoodDiagram
  do_max_ : Bool
  bidder_diagrams_max_ : List X.BidderDiagram
  current_bidder_diagrams_max_ : List X.BidderDiagram
  centroids_max_ : List X.GoodDiagram
  centroids_with_price_max_ : List X.GoodDiagram
  clustering_ : List (List Int)
  old_clustering_ : List (List Int)
  inv_clustering_ : List Int
  centroids_sizes_ : List (List Int)
  r_ : List Bool
  u_ : List Double
  l_ : List (List Double)
  centroidsDistanceMatrix_ : List (List Double)
  useFullDiagrams_ : Bool
  n_iterations_ : Int
  pairTypeClustering_ : Int

namespace PersistenceDiagramDistanceMatrix

variable {X : ExternalTypes}

/-- The literal `1e-8`. -/
def lit_1e_8 : Double := Double.ofRat 1 (10 ^ 8)

/-- The literal `5e-5`. -/
def lit_5e_5 : Double := Double.ofRat 5 (10 ^ 5)

/-- Constant `std::numeric_limits<double>::max()`. -/
def DBL_MAX : Double := .fin false (2 ^ 53 - 1) 971

/-- The implicitly defined default constructor: members with a default member initializer take
it, `std::vector` members are empty, and every other member keeps whatever indeterminate value
`u` holds for it (the `Debug` base is whatever its own constructor leaves, also read off `u`). -/
def construct (u : PersistenceDiagramDistanceMatrix X) : PersistenceDiagramDistanceMatrix X :=
  { u with
    precision_criterion_ := false
    precision_max_ := false
    precision_min_ := false
    precision_sad_ := false
    forceUseOfAlgorithm_ := false
    deterministic_ := true
    wasserstein_ := 2
    geometrical_factor_ := Double.ofNat 1
    UseDeltaLim_ := false
    distanceWritingOptions_ := 0
    use_progressive_ := true
    use_kdtree_ := true
    time_limit_ := DBL_MAX
    epsilon_min_ := lit_1e_8
    cost_min_ := Double.ofNat 0
    cost_sad_ := Double.ofNat 0
    cost_max_ := Double.ofNat 0
    current_bidder_ids_min_ := []
    current_bidder_ids_sad_ := []
    current_bidder_ids_max_ := []
    inputDiagramsMin_ := []
    inputDiagramsSaddle_ := []
    inputDiagramsMax_ := []
    bidder_diagrams_min_ := []
    current_bidder_diagrams_min_ := []
    centroids_min_ := []
    centroids_with_price_min_ := []
    bidder_diagrams_saddle_ := []
    current_bidder_diagrams_saddle_ := []
    centroids_saddle_ := []
    centroids_with_price_saddle_ := []
    bidder_diagrams_max_ := []
    current_bidder_diagrams_max_ := []
    centroids_max_ := []
    centroids_with_price_max_ := []
    clustering_ := []
    old_clustering_ := []
    inv_clustering_ := []
    centroids_sizes_ := []
    r_ := []
    u_ := []
    l_ := []
    centroidsDistanceMatrix_ := []
    useFullDiagrams_ := false }

/-- Method `resetDosToOriginalValues()`. -/
def resetDosToOriginalValues (self : PersistenceDiagramDistanceMatrix X) :
    PersistenceDiagramDistanceMatrix X :=
  { self with
    do_min_ := self.original_dos.a0
    do_sad_ := self.original_dos.a1
    do_max_ := self.original_dos.a2 }

/-- Method `setNumberOfInputs`. -/
def setNumberOfInputs (numberOfInputs : Int) (self : PersistenceDiagramDistanceMatrix X) :
    PersistenceDiagramDistanceMatrix X :=
  { self with numberOfInputs_ := numberOfInputs }

/-- Method `setNumberOfClusters`. -/
def setNumberOfClusters (k : Int) (self : PersistenceDiagramDistanceMatrix X) :
    PersistenceDiagramDistanceMatrix X :=
  { self with k_ := k }

/-- Method `setWasserstein`. The right-hand side is evaluated first: when `stoi` throws, the
exception propagates to the caller and the assignment never happens, so the object is the one
before the call. The result pairs the outcome of the call with the object after it. -/
def setWasserstein (wasserstein : String) (self : PersistenceDiagramDistanceMatrix X) :
    Except StdException Unit × PersistenceDiagramDistanceMatrix X :=
  if wasserstein = "inf" then (.ok (), { self with wasserstein_ := -1 })
  else
    match stoi wasserstein with
    | .ok v => (.ok (), { self with wasserstein_ := v })
    | .error e => (.error e, self)

/-- Method `setUseProgressive`. -/
def setUseProgressive (use_progressive : Bool) (self : PersistenceDiagramDistanceMatrix X) :
    PersistenceDiagramDistanceMatrix X :=
  { self with use_progressive_ := use_progressive }

/-- Method `setUseKmeansppInit`. -/
def setUseKmeansppInit (use_kmeanspp : Bool) (self : PersistenceDiagramDistanceMatrix X) :
    PersistenceDiagramDistanceMatrix X :=
  { self with use_kmeanspp_ := use_kmeanspp }

/-- Method `setUseKDTree`. -/
def setUseKDTree (use_kdtree : Bool) (self : PersistenceDiagramDistanceMatrix X) :
    PersistenceDiagramDistanceMatrix X :=
  { self with use_kdtree_ := use_kdtree }

/-- Method `setUseAccelerated`. -/
def setUseAccelerated (use_accelerated : Bool) (self : PersistenceDiagramDistanceMatrix X) :
    PersistenceDiagramDistanceMatrix X :=
  { self with use_accelerated_ := use_accelerated }

/-- Method `setTimeLimit`. -/
def setTimeLimit (time_limit : Double) (self : PersistenceDiagramDistanceMatrix X) :
    PersistenceDiagramDistanceMatrix X :=
  { self with time_limit_ := time_limit }

/-- Method `setPairTypeClustering`. -/
def setPairTypeClustering (pairTypeClustering : Int) (self : PersistenceDiagramDistanceMatrix X) :
    PersistenceDiagramDistanceMatrix X :=
  { self with pairTypeClustering_ := pairTypeClustering }

/-- Method `setAlpha`. -/
def setAlpha (alpha : Double) (self : PersistenceDiagramDistanceMatrix X) :
    PersistenceDiagramDistanceMatrix X :=
  { self with geometrical_factor_ := alpha }

/-- Method `setLambda`. -/
def setLambda (lambda : Double) (self : PersistenceDiagramDistanceMatrix X) :
    PersistenceDiagramDistanceMatrix X :=
  { self with lambda_ := lambda }

/-- Method `setForceUseOfAlgorithm`. -/
def setForceUseOfAlgorithm (forceUseOfAlgorithm : Bool)
    (self : PersistenceDiagramDistanceMatrix X) : PersistenceDiagramDistanceMatrix X :=
  { self with forceUseOfAlgorithm_ := forceUseOfAlgorithm }

/-- Method `setDeterministic`. -/
def setDeterministic (deterministic : Bool) (self : PersistenceDiagramDistanceMatrix X) :
    PersistenceDiagramDistanceMatrix X :=
  { self with deterministic_ := deterministic }

/-- Method `setUseDeltaLim`. -/
def setUseDeltaLim (UseDeltaLim : Bool) (self : PersistenceDiagramDistanceMatrix X) :
    PersistenceDiagramDistanceMatrix X :=
  let self := { self with UseDeltaLim_ := UseDeltaLim }
  if self.UseDeltaLim_ then { self with epsilon_min_ := lit_1e_8 }
  else { self with epsilon_min_ := lit_5e_5 }

/-- Method `setDistanceWritingOptions`. -/
def setDistanceWritingOptions (distanceWritingOptions : Int)
    (self : PersistenceDiagramDistanceMatrix X) : PersistenceDiagramDistanceMatrix X :=
  { self with distanceWritingOptions_ := distanceWritingOptions }

/-- Method `setDeltaLim`. -/
def setDeltaLim (deltaLim : Double) (self : PersistenceDiagramDistanceMatrix X) :
    PersistenceDiagramDistanceMatrix X :=
  { self with deltaLim_ := deltaLim }

/-- Method `setUseFullDiagrams`. -/
def setUseFullDiagrams (arg : Bool) (self : PersistenceDiagramDistanceMatrix X) :
    PersistenceDiagramDistanceMatrix X :=
  { self with useFullDiagrams_ := arg }

end PersistenceDiagramDistanceMatrix

/-- Modelled from the spec: the bodies of `getDiagramsDistMat()` and `getDistanceMatrix()` are
not in the header (only their declarations are). Spec, DistanceMatrix: "square mapping from
(diagram index i, diagram index j) to a non-negative real distance; symmetric by construction
(computed once per unordered pair); diagonal is zero by definition and never computed"; and
Distance-Matrix Assembly: they "drive [the pairwise distance evaluator] over every unordered
pair of input diagrams, restricted to whichever pair-type families are active, and assemble the
symmetric matrix". `computeDistance doMin doSad doMax a b` stands for that evaluator (it runs the
external transport solver) restricted to the active families. -/
def PersistenceDiagramDistanceMatrix.getDiagramsDistMat {X : ExternalTypes} {D : Type}
    (computeDistance : Bool → Bool → Bool → D → D → Double)
    (self : PersistenceDiagramDistanceMatrix X) (inputs : List D) : List (List Double) :=
  inputs.enum.map fun a => inputs.enum.map fun b =>
    if a.1 = b.1 then Double.zero false
    else if a.1 < b.1 then computeDistance self.do_min_ self.do_sad_ self.do_max_ a.2 b.2
    else computeDistance self.do_min_ self.do_sad_ self.do_max_ b.2 a.2

/-- Modelled from the spec: `getDistanceMatrix()`, which the spec describes together with
`getDiagramsDistMat()` as one assembly of the symmetric matrix. -/
def PersistenceDiagramDistanceMatrix.getDistanceMatrix {X : ExternalTypes} {D : Type}
    (computeDistance : Bool → Bool → Bool → D → D → Double)
    (self : PersistenceDiagramDistanceMatrix X) (inputs : List D) : List (List Double) :=
  self.getDiagramsDistMat computeDistance inputs

/-- Entry `(i, j)` of a matrix stored as a vector of rows, when it exists. -/
def entry (M : List (List Double)) (i j : Nat) : Option Double :=
  (M[i]?).bind fun row => row[j]?

/-! ## MetricDistortion -/

/-- The `<cmath>` functions the class calls. -/
structure Libm where
  /-- Function `std::pow`. -/
  pow : Double → Double → Double
  /-- Function `std::acos`. -/
  acos : Double → Double

/-- Macro `M_PI`, the literal `3.14159265358979323846`. -/
def M_PI : Double := Double.ofRat 314159265358979323846 (10 ^ 20)

/-- Access `v[i]` with an `int` index: defined when `0 <= i < v.size()`. -/
def vecAt {α : Type} (v : List α) (i : Int) : Option α :=
  if i < 0 then none else v[i.toNat]?

/-- Range of `unsigned int`: `dim` is declared `unsigned int`. -/
def toUnsigned (n : Nat) : Nat := n % 4294967296

namespace MetricDistortion

/-- Method `cosineLaw`: the angle opposite to edge `c`. -/
def cosineLaw (L : Libm) (a b c : Double) : Double :=
  L.acos (Double.div (Double.sub (Double.add (Double.mul a a) (Double.mul b b)) (Double.mul c c))
    (Double.mul (Double.mul (Double.ofNat 2) a) b))

/-- The loop of `l2Distance`, over the coordinates of `p1` that remain. -/
def l2DistanceLoop (L : Libm) : List Double → List Double → Double → Option Double
  | [], _, distance => some distance
  | _ :: _, [], _ => none
  | x :: p1, y :: p2, distance =>
    l2DistanceLoop L p1 p2 (Double.add distance (L.pow (Double.sub x y) (Double.ofNat 2)))

/-- Method `l2Distance`. -/
def l2Distance (L : Libm) (p1 p2 : List Double) : Option Double :=
  (l2DistanceLoop L p1 p2 (Double.zero false)).map Double.sqrt

/-- Method `triangleArea3D`. -/
def triangleArea3D (L : Libm) (x1 x2 x3 : List Double) : Option Double := do
  let ab0 := Double.sub (← x2[0]?) (← x1[0]?)
  let ac0 := Double.sub (← x3[0]?) (← x1[0]?)
  let ab1 := Double.sub (← x2[1]?) (← x1[1]?)
  let ac1 := Double.sub (← x3[1]?) (← x1[1]?)
  let ab2 := Double.sub (← x2[2]?) (← x1[2]?)
  let ac2 := Double.sub (← x3[2]?) (← x1[2]?)
  pure (Double.div
    (Double.sqrt
      (Double.add
        (Double.add
          (L.pow (Double.sub (Double.mul ab1 ac2) (Double.mul ab2 ac1)) (Double.ofNat 2))
          (L.pow (Double.sub (Double.mul ab2 ac0) (Double.mul ab0 ac2)) (Double.ofNat 2)))
        (L.pow (Double.sub (Double.mul ab0 ac1) (Double.mul ab1 ac0)) (Double.ofNat 2))))
    (Double.ofNat 2))

/-- Method `triangleAreaFromSides` (Heron). -/
def triangleAreaFromSides (a b c : Double) : Double :=
  let s := Double.div (Double.add (Double.add a b) c) (Double.ofNat 2)
  Double.sqrt (Double.mul (Double.mul (Double.mul s (Double.sub s a)) (Double.sub s b))
    (Double.sub s c))

/-- Access `distanceMatrix[i][j]`. -/
def matAt (distanceMatrix : List (List Double)) (i j : Int) : Option Double :=
  (vecAt distanceMatrix i).bind fun row => vecAt row j

/-- One iteration of the loop of `computeSurfaceArea`: the values of `surfaceArea[i]`,
`metricArea[i]` and `ratioArea[i]` after iteration `i`, all three initialised with NaN. -/
def areaOfCell (L : Libm) (surfacePoints : List (List Double))
    (distanceMatrix : List (List Double)) (cell : List Int) :
    Option (Double × Double × Double) :=
  if cell.length < 3 ∨ cell.length > 4 then some (Double.nan, Double.nan, Double.nan)
  else do
    let i0 ← cell[0]?
    let i1 ← cell[1]?
    let i2 ← cell[2]?
    let surfaceArea ← triangleArea3D L (← vecAt surfacePoints i0) (← vecAt surfacePoints i1)
      (← vecAt surfacePoints i2)
    let metricArea ←
      if distanceMatrix.length ≠ 0 then
        (do pure (triangleAreaFromSides (← matAt distanceMatrix i0 i1)
              (← matAt distanceMatrix i1 i2) (← matAt distanceMatrix i2 i1)))
      else pure Double.nan
    let (surfaceArea, metricArea) ←
      if cell.length = 4 then
        (do
          let i3 ← cell[3]?
          let surfaceArea := Double.add surfaceArea
            (← triangleArea3D L (← vecAt surfacePoints i1) (← vecAt surfacePoints i2)
              (← vecAt surfacePoints i3))
          let metricArea ←
            if distanceMatrix.length ≠ 0 then
              (do pure (Double.add metricArea
                    (triangleAreaFromSides (← matAt distanceMatrix i1 i2)
                      (← matAt distanceMatrix i2 i3) (← matAt distanceMatrix i3 i1))))
            else pure metricArea
          pure (surfaceArea, metricArea))
      else pure (surfaceArea, metricArea)
    let ratioArea :=
      if distanceMatrix.length ≠ 0 then Double.div metricArea surfaceArea else Double.nan
    pure (surfaceArea, metricArea, ratioArea)

/-- The three output vectors of `computeSurfaceArea`. -/
structure AreaOutput where
  surfaceArea : List Double
  metricArea : List Double
  ratioArea : List Double
  deriving DecidableEq, Repr

/-- Method `computeSurfaceArea`: iteration `i` reads cell `i` and writes position `i` of the
three outputs, for `i < dim`. -/
def computeSurfaceArea (L : Libm) (surfacePoints : List (List Double))
    (surfaceCells : List (List Int)) (distanceMatrix : List (List Double)) :
    Option AreaOutput :=
  let dim := toUnsigned surfaceCells.length
  ((surfaceCells.take dim).mapM (areaOfCell L surfacePoints distanceMatrix)).map fun rows =>
    { surfaceArea := rows.map fun r => r.1
      metricArea := rows.map fun r => r.2.1
      ratioArea := rows.map fun r => r.2.2 }

/-- One iteration of the loop of `computeSurfaceDistance`. -/
def distanceOfCell (L : Libm) (surfacePoints : List (List Double))
    (distanceMatrix : List (List Double)) (cell : List Int) :
    Option (Double × Double × Double) :=
  if cell.length ≠ 2 then some (Double.nan, Double.nan, Double.nan)
  else do
    let i0 ← cell[0]?
    let i1 ← cell[1]?
    let surfaceDistance ← l2Distance L (← vecAt surfacePoints i0) (← vecAt surfacePoints i1)
    if distanceMatrix.length ≠ 0 then
      (do
        let metricDistance ← matAt distanceMatrix i0 i1
        pure (surfaceDistance, metricDistance, Double.div metricDistance surfaceDistance))
    else pure (surfaceDistance, Double.nan, Double.nan)

/-- The three output vectors of `computeSurfaceDistance`. -/
structure DistanceOutput where
  surfaceDistance : List Double
  metricDistance : List Double
  ratioDistance : List Double
  deriving DecidableEq, Repr

/-- Method `computeSurfaceDistance`. -/
def computeSurfaceDistance (L : Libm) (surfacePoints : List (List Double))
    (surfaceCells : List (List Int)) (distanceMatrix : List (List Double)) :
    Option DistanceOutput :=
  let dim := toUnsigned surfaceCells.length
  ((surfaceCells.take dim).mapM (distanceOfCell L surfacePoints distanceMatrix)).map fun rows =>
    { surfaceDistance := rows.map fun r => r.1
      metricDistance := rows.map fun r => r.2.1
      ratioDistance := rows.map fun r => r.2.2 }

/-- The pair pushed for position `j` of a cell of `cellNoPoints` points. -/
def cellTuple (cellNoPoints j : Nat) : Int × Int :=
  if cellNoPoints = 4 then
    (((if j ≠ 3 then j + 1 else j - 2 : Nat) : Int), ((if j ≠ 0 then j - 1 else j + 2 : Nat) : Int))
  else ((((j + 1) % cellNoPoints : Nat) : Int), (((j + 2) % cellNoPoints : Nat) : Int))

/-- Statement `v[i].push_back(t)`. -/
def pushBackAt {α : Type} (v : List (List α)) (i : Int) (t : α) : Option (List (List α)) :=
  (vecAt v i).map fun row => v.set i.toNat (row ++ [t])

/-- The inner loop over `j` that fills `point2CellPoints` for one cell; `js` are the positions
still to visit. -/
def pushCellTuples (cell : List Int) :
    List Nat → List (List (Int × Int)) → Option (List (List (Int × Int)))
  | [], point2CellPoints => some point2CellPoints
  | j :: js, point2CellPoints => do
    let id ← cell[j]?
    let point2CellPoints ← pushBackAt point2CellPoints id (cellTuple cell.length j)
    pushCellTuples cell js point2CellPoints

/-- The first loop of `computeSurfaceCurvature`, over the cells that remain. -/
def buildPoint2CellPoints :
    List (List Int) → List (List (Int × Int)) → Option (List (List (Int × Int)))
  | [], point2CellPoints => some point2CellPoints
  | cell :: cells, point2CellPoints =>
    if cell.length < 3 ∨ cell.length > 4 then buildPoint2CellPoints cells point2CellPoints
    else do
      let point2CellPoints ← pushCellTuples cell (List.range cell.length) point2CellPoints
      buildPoint2CellPoints cells point2CellPoints

/-- The inner loop of the second loop of `computeSurfaceCurvature` for point `i`, over the pairs
of `point2CellPoints[i]` that remain; the state is `(sumAngleSurface, sumAngleMetric)`. -/
def sumAngles (L : Libm) (surfacePoints : List (List Double))
    (distanceMatrix : List (List Double)) (i : Nat) :
    List (Int × Int) → Double × Double → Option (Double × Double)
  | [], sums => some sums
  | tup :: tups, (sumAngleSurface, sumAngleMetric) => do
    let i0 := tup.1
    let i1 := tup.2
    let p_i0 ← vecAt surfacePoints i0
    let p_i1 ← vecAt surfacePoints i1
    let p_i ← surfacePoints[i]?
    let sumAngleSurface := Double.add sumAngleSurface
      (cosineLaw L (← l2Distance L p_i p_i0) (← l2Distance L p_i p_i1)
        (← l2Distance L p_i0 p_i1))
    let sumAngleMetric ←
      if distanceMatrix.length ≠ 0 then
        (do pure (Double.add sumAngleMetric
              (cosineLaw L (← matAt distanceMatrix i i0) (← matAt distanceMatrix i i1)
                (← matAt distanceMatrix i0 i1))))
      else pure sumAngleMetric
    sumAngles L surfacePoints distanceMatrix i tups (sumAngleSurface, sumAngleMetric)

/-- One iteration of the second loop of `computeSurfaceCurvature`: the values of
`surfaceCurvature[i]`, `metricCurvature[i]` and `ratioCurvature[i]` after iteration `i`. -/
def curvatureOfPoint (L : Libm) (surfacePoints : List (List Double))
    (distanceMatrix : List (List Double)) (i : Nat) (tups : List (Int × Int)) :
    Option (Double × Double × Double) := do
  let sums ← sumAngles L surfacePoints distanceMatrix i tups (Double.zero false, Double.zero false)
  let surfaceCurvature := Double.sub (Double.mul (Double.ofNat 2) M_PI) sums.1
  if distanceMatrix.length ≠ 0 then
    let metricCurvature := Double.sub (Double.mul (Double.ofNat 2) M_PI) sums.2
    pure (surfaceCurvature, metricCurvature, Double.div metricCurvature surfaceCurvature)
  else pure (surfaceCurvature, Double.nan, Double.nan)

/-- The three output vectors of `computeSurfaceCurvature`. -/
structure CurvatureOutput where
  surfaceCurvature : List Double
  metricCurvature : List Double
  ratioCurvature : List Double
  deriving DecidableEq, Repr

/-- Method `computeSurfaceCurvature`. -/
def computeSurfaceCurvature (L : Libm) (surfacePoints : List (List Double))
    (surfaceCells : List (List Int)) (distanceMatrix : List (List Double)) :
    Option CurvatureOutput := do
  let dim := toUnsigned surfacePoints.length
  let point2CellPoints ← buildPoint2CellPoints surfaceCells (List.replicate dim [])
  let rows ← point2CellPoints.enum.mapM fun it =>
    curvatureOfPoint L surfacePoints distanceMatrix it.1 it.2
  pure
    { surfaceCurvature := rows.map fun r => r.1
      metricCurvature := rows.map fun r => r.2.1
      ratioCurvature := rows.map fun r => r.2.2 }

end MetricDistortion

/-! ## Sequences of setter calls -/

/-- A call of one of the inline mutators of the class, with its argument. -/
inductive SetterCall where
  | resetDosToOriginalValues
  | setNumberOfInputs (numberOfInputs : Int)
  | setNumberOfClusters (k : Int)
  | setWasserstein (wasserstein : String)
  | setUseProgressive (use_progressive : Bool)
  | setUseKmeansppInit (use_kmeanspp : Bool)
  | setUseKDTree (use_kdtree : Bool)
  | setUseAccelerated (use_accelerated : Bool)
  | setTimeLimit (time_limit : Double)
  | setPairTypeClustering (pairTypeClustering : Int)
  | setAlpha (alpha : Double)
  | setLambda (lambda : Double)
  | setForceUseOfAlgorithm (forceUseOfAlgorithm : Bool)
  | setDeterministic (deterministic : Bool)
  | setUseDeltaLim (UseDeltaLim : Bool)
  | setDistanceWritingOptions (distanceWritingOptions : Int)
  | setDeltaLim (deltaLim : Double)
  | setUseFullDiagrams (arg : Bool)

namespace PersistenceDiagramDistanceMatrix

/-- The object after one call (for `setWasserstein`, whether it returned or threw). -/
def call {X : ExternalTypes} (self : PersistenceDiagramDistanceMatrix X) :
    SetterCall → PersistenceDiagramDistanceMatrix X
  | .resetDosToOriginalValues => resetDosToOriginalValues self
  | .setNumberOfInputs n => setNumberOfInputs n self
  | .setNumberOfClusters k => setNumberOfClusters k self
  | .setWasserstein w => (setWasserstein w self).2
  | .setUseProgressive b => setUseProgressive b self
  | .setUseKmeansppInit b => setUseKmeansppInit b self
  | .setUseKDTree b => setUseKDTree b self
  | .setUseAccelerated b => setUseAccelerated b self
  | .setTimeLimit t => setTimeLimit t self
  | .setPairTypeClustering p => setPairTypeClustering p self
  | .setAlpha a => setAlpha a self
  | .setLambda l => setLambda l self
  | .setForceUseOfAlgorithm b => setForceUseOfAlgorithm b self
  | .setDeterministic b => setDeterministic b self
  | .setUseDeltaLim b => setUseDeltaLim b self
  | .setDistanceWritingOptions d => setDistanceWritingOptions d self
  | .setDeltaLim d => setDeltaLim d self
  | .setUseFullDiagrams b => setUseFullDiagrams b self

/-- The object after a sequence of calls. -/
def calls {X : ExternalTypes} (self : PersistenceDiagramDistanceMatrix X)
    (cs : List SetterCall) : PersistenceDiagramDistanceMatrix X :=
  cs.foldl call self

/-- The pairing `setUseDeltaLim` establishes between `UseDeltaLim_` and `epsilon_min_`. -/
def EpsilonPaired {X : ExternalTypes} (self : PersistenceDiagramDistanceMatrix X) : Prop :=
  self.epsilon_min_ = if self.UseDeltaLim_ then lit_1e_8 else lit_5e_5

end PersistenceDiagramDistanceMatrix

/-- Whether a call is a call of `setUseDeltaLim`. -/
def SetterCall.isSetUseDeltaLim : SetterCall → Bool
  | .setUseDeltaLim _ => true
  | _ => false

/-! ## Reference notions for the claims about `MetricDistortion` -/

/-- A stand-in `<cmath>` for evaluations: `pow(x, 2)` is the correctly rounded square (the value
IEEE 754 recommends, and `+0` at `±0` as C Annex F requires); `pow` with another exponent and
`acos` are not evaluated where this is used and are NaN. -/
def Libm.squaring : Libm :=
  { pow := fun x y => if y = Double.ofNat 2 then Double.mul x x else Double.nan
    acos := fun _ => Double.nan }

/-- The six products in the cross product `AB × AC` of `triangleArea3D` are all finite (in
particular the three points have three coordinates each, these are finite, and neither a
difference nor a product overflows). -/
def finiteCrossTerms (x1 x2 x3 : List Double) : Bool :=
  match x1, x2, x3 with
  | a0 :: a1 :: a2 :: _, b0 :: b1 :: b2 :: _, c0 :: c1 :: c2 :: _ =>
    (Double.mul (Double.sub b1 a1) (Double.sub c2 a2)).isFinite &&
    (Double.mul (Double.sub b2 a2) (Double.sub c1 a1)).isFinite &&
    (Double.mul (Double.sub b2 a2) (Double.sub c0 a0)).isFinite &&
    (Double.mul (Double.sub b0 a0) (Double.sub c2 a2)).isFinite &&
    (Double.mul (Double.sub b0 a0) (Double.sub c1 a1)).isFinite &&
    (Double.mul (Double.sub b1 a1) (Double.sub c0 a0)).isFinite
  | _, _, _ => false

/-- No read of `computeSurfaceArea` is out of bounds: every point has three coordinates, every
id in a cell names a point, and the distance matrix, when given, covers all points. -/
def InRange (surfacePoints : List (List Double)) (surfaceCells : List (List Int))
    (distanceMatrix : List (List Double)) : Prop :=
  (∀ p ∈ surfacePoints, 3 ≤ p.length) ∧
  (∀ c ∈ surfaceCells, ∀ id ∈ c, 0 ≤ id ∧ id < (surfacePoints.length : Int)) ∧
  (distanceMatrix = [] ∨
    (surfacePoints.length ≤ distanceMatrix.length ∧
      ∀ row ∈ distanceMatrix, surfacePoints.length ≤ row.length))

/-- A point of three coordinates as the `std::vector<double>` the class reads. -/
def pt (c : Double × Double × Double) : List Double := [c.1, c.2.1, c.2.2]

/-- What `l2Distance` returns on two points of three coordinates. -/
def l2Distance3 (L : Libm) (p q : Double × Double × Double) : Double :=
  Double.sqrt
    (Double.add
      (Double.add
        (Double.add (Double.zero false) (L.pow (Double.sub p.1 q.1) (Double.ofNat 2)))
        (L.pow (Double.sub p.2.1 q.2.1) (Double.ofNat 2)))
      (L.pow (Double.sub p.2.2 q.2.2) (Double.ofNat 2)))

/-! ## Reference notions for the claims about `setWasserstein` -/

/-- Value of a run of decimal digits, most significant first, as a positional sum. -/
def decimalValue (digits : List Char) : Nat :=
  Nat.ofDigits 10 (digits.reverse.map fun c => c.toNat - 48)

/-- The characters after an optional leading sign. -/
def afterSign (cs : List Char) : List Char :=
  if cs.head? = some '-' ∨ cs.head? = some '+' then cs.tail else cs

/-- A decimal integer literal: an optional sign followed by one or more decimal digits and
nothing else. -/
def isIntegerLiteral (cs : List Char) : Bool :=
  !(afterSign cs).isEmpty && (afterSign cs).all isdigit

/-- The integer a run of characters starts with: the sign, if any, applied to the value of the
longest run of digits after it. -/
def leadingValue (cs : List Char) : Int :=
  if cs.head? = some '-' then -(decimalValue ((afterSign cs).takeWhile isdigit) : Int)
  else (decimalValue ((afterSign cs).takeWhile isdigit) : Int)

/-- Value of a decimal integer literal: the sign, if any, applied to the value of the digits. -/
def literalValue (cs : List Char) : Int :=
  if cs.head? = some '-' then -(decimalValue (afterSign cs) : Int)
  else (decimalValue (afterSign cs) : Int)

/-- Range of `int`. -/
def inIntRange (v : Int) : Prop := -2147483648 ≤ v ∧ v ≤ 2147483647

instance (v : Int) : Decidable (inIntRange v) := by unfold inIntRange; infer_instance

/-! ## A concrete object for evaluations -/

/-- External types instantiated by `Unit`. -/
def ExternalTypes.unit : ExternalTypes := ⟨Unit, Unit, Unit, Unit, Unit, Unit⟩

namespace PersistenceDiagramDistanceMatrix

/-- A freshly constructed object whose members without initializer happen to hold zeros. -/
def sample : PersistenceDiagramDistanceMatrix ExternalTypes.unit :=
  construct
    { debug := ()
      barycenter_inputs_reset_flag := false
      precision_criterion_ := false
      precision_max_ := false
      precision_min_ := false
      precision_sad_ := false
      forceUseOfAlgorithm_ := false
      deterministic_ := false
      wasserstein_ := 0
      geometrical_factor_ := Double.zero false
      deltaLim_ := Double.zero false
      UseDeltaLim_ := false
      distanceWritingOptions_ := 0
      lambda_ := Double.zero false
      k_ := 0
      numberOfInputs_ := 0
      use_progressive_ := false
      use_accelerated_ := false
      use_kmeanspp_ := false
      use_kdtree_ := false
      time_limit_ := Double.zero false
      epsilon_min_ := Double.zero false
      epsilon_ := ⟨Double.zero false, Double.zero false, Double.zero false⟩
      cost_ := Double.zero false
      cost_min_ := Double.zero false
      cost_sad_ := Double.zero false
      cost_max_ := Double.zero false
      current_bidder_ids_min_ := []
      current_bidder_ids_sad_ := []
      current_bidder_ids_max_ := []
      inputDiagramsMin_ := []
      inputDiagramsSaddle_ := []
      inputDiagramsMax_ := []
      original_dos := ⟨false, false, false⟩
      do_min_ := false
      bidder_diagrams_min_ := []
      current_bidder_diagrams_min_ := []
      centroids_min_ := []
      centroids_with_price_min_ := []
      do_sad_ := false
      bidder_diagrams_saddle_ := []
      current_bidder_diagrams_saddle_ := []
      centroids_saddle_ := []
      centroids_with_price_saddle_ := []
      do_max_ := false
      bidder_diagrams_max_ := []
      current_bidder_diagrams_max_ := []
      centroids_max_ := []
      centroids_with_price_max_ := []
      clustering_ := []
      old_clustering_ := []
      inv_clustering_ := []
      centroids_sizes_ := []
      r_ := []
      u_ := []
      l_ := []
      centroidsDistanceMatrix_ := []
      useFullDiagrams_ := false
      n_iterations_ := 0
      pairTypeClustering_ := 0 }

end PersistenceDiagramDistanceMatrix

/-! ## Lemmas on `stoi` -/

theorem skipSpace_eq_dropWhile (cs : List Char) : skipSpace cs = cs.dropWhile isspace := by
  induction cs with
  | nil => rfl
  | cons c cs ih =>
    by_cases h : isspace c = true
    · simp [skipSpace, List.dropWhile, h, ih]
    · simp [skipSpace, List.dropWhile, h]

theorem decimalValue_nil : decimalValue [] = 0 := by
  simp [decimalValue]

theorem decimalValue_cons (c : Char) (ds : List Char) :
    decimalValue (c :: ds) = (c.toNat - 48) * 10 ^ ds.length + decimalValue ds := by
  simp [decimalValue, Nat.ofDigits_append, Nat.mul_comm]
  omega

theorem strtolDigits_eq (cs : List Char) (acc : Nat) :
    strtolDigits acc cs
      = acc * 10 ^ (cs.takeWhile isdigit).length + decimalValue (cs.takeWhile isdigit) := by
  induction cs generalizing acc with
  | nil => simp [strtolDigits, decimalValue_nil]
  | cons c cs ih =>
    by_cases h : isdigit c = true
    · simp only [strtolDigits, h, if_true, List.takeWhile_cons_of_pos, List.length_cons, ih,
        decimalValue_cons]
      ring
    · simp [strtolDigits, h, decimalValue_nil]

theorem stoi_eq (str : String) :
    stoi str =
      if (afterSign (str.data.dropWhile isspace)).takeWhile isdigit = [] then
        .error .invalid_argument
      else if inIntRange (leadingValue (str.data.dropWhile isspace)) then
        .ok (leadingValue (str.data.dropWhile isspace))
      else .error .out_of_range := by
  unfold stoi
  simp only [skipSpace_eq_dropWhile]
  generalize str.data.dropWhile isspace = s
  have key : (if s.head? = some '-' ∨ s.head? = some '+' then s.tail else s) = afterSign s := rfl
  rw [key]
  cases hb : afterSign s with
  | nil => simp
  | cons c cs =>
    by_cases hc : isdigit c = true
    · have hv : (strtolDigits 0 (c :: cs) : Nat)
          = decimalValue ((c :: cs).takeWhile isdigit) := by
        rw [strtolDigits_eq]; simp
      simp only [hc, if_true, hv, leadingValue, hb, inIntRange]
      have hne : List.takeWhile isdigit (c :: cs) ≠ [] := by simp [List.takeWhile, hc]
      simp only [hne, if_false]
      by_cases hneg : s.head? = some '-'
      · simp only [hneg, decide_True, if_true]
        split_ifs <;> first | rfl | omega
      · simp only [hneg, decide_False, if_false, Bool.false_eq_true]
        split_ifs <;> first | rfl | omega
    · simp [List.takeWhile, hc]

theorem takeWhile_isdigit_of_all (cs : List Char) (h : cs.all isdigit = true) :
    cs.takeWhile isdigit = cs := by
  induction cs with
  | nil => rfl
  | cons c cs ih =>
    simp only [List.all_cons, Bool.and_eq_true] at h
    simp [List.takeWhile, h.1, ih h.2]

theorem isspace_of_isdigit (c : Char) (h : isdigit c = true) : isspace c = false := by
  simp only [isdigit, isspace, Bool.and_eq_true, decide_eq_true_eq] at *
  simp only [Bool.or_eq_false_iff, Bool.and_eq_false_iff, decide_eq_false_iff_not]
  omega

theorem dropWhile_isspace_of_literal (cs : List Char) (h : isIntegerLiteral cs = true) :
    cs.dropWhile isspace = cs := by
  cases cs with
  | nil => rfl
  | cons c cs =>
    have hc : isspace c = false := by
      by_cases hs : c = '-' ∨ c = '+'
      · rcases hs with rfl | rfl <;> decide
      · have hb : afterSign (c :: cs) = c :: cs := by
          simp only [afterSign, List.head?_cons, Option.some.injEq]
          rw [if_neg hs]
        simp only [isIntegerLiteral, hb, List.all_cons, Bool.and_eq_true] at h
        exact isspace_of_isdigit c h.2.1
    simp [List.dropWhile, hc]

theorem leadingValue_of_literal (cs : List Char) (h : isIntegerLiteral cs = true) :
    (afterSign cs).takeWhile isdigit ≠ [] ∧ leadingValue cs = literalValue cs := by
  simp only [isIntegerLiteral, Bool.and_eq_true, Bool.not_eq_true', List.isEmpty_eq_false] at h
  have ht := takeWhile_isdigit_of_all _ h.2
  refine ⟨by rw [ht]; exact h.1, ?_⟩
  simp only [leadingValue, literalValue, ht]

/-! ## Lemmas on binary64 arithmetic -/

namespace Double

theorem signedScaled_not (s : Bool) (m k : Nat) :
    signedScaled s m k + signedScaled (!s) m k = 0 := by
  cases s <;> simp [signedScaled]

theorem sub_self_fin (s : Bool) (m : Nat) (e : Int) :
    sub (.fin s m e) (.fin s m e) = zero false := by
  simp only [sub, neg, add, signedScaled_not, if_true]
  cases s <;> rfl

theorem isFinite_iff {a : Double} : a.isFinite = true ↔ ∃ s m e, a = .fin s m e := by
  cases a <;> simp [isFinite]

theorem isFinite_sub {a b : Double} (h : (sub a b).isFinite = true) :
    a.isFinite = true ∧ b.isFinite = true := by
  cases a with
  | nan => cases b <;> simp [sub, neg, add, isFinite] at h
  | inf s =>
    cases b with
    | nan => simp [sub, neg, add, isFinite] at h
    | inf t => cases s <;> cases t <;> simp [sub, neg, add, isFinite] at h
    | fin t n f => simp [sub, neg, add, isFinite] at h
  | fin s m e =>
    cases b with
    | nan => simp [sub, neg, add, isFinite] at h
    | inf t => simp [sub, neg, add, isFinite] at h
    | fin t n f => exact ⟨rfl, rfl⟩

theorem isFinite_mul {a b : Double} (h : (mul a b).isFinite = true) :
    a.isFinite = true ∧ b.isFinite = true := by
  cases a with
  | nan => cases b <;> simp [mul, isFinite] at h
  | inf s =>
    cases b with
    | nan => simp [mul, isFinite] at h
    | inf t => simp [mul, isFinite] at h
    | fin t n f => by_cases hn : n = 0 <;> simp [mul, isFinite, hn] at h
  | fin s m e =>
    cases b with
    | nan => simp [mul, isFinite] at h
    | inf t => by_cases hm : m = 0 <;> simp [mul, isFinite, hm] at h
    | fin t n f => exact ⟨rfl, rfl⟩

theorem mul_comm (a b : Double) : mul a b = mul b a := by
  cases a <;> cases b <;> simp [mul, Bool.xor_comm, Nat.mul_comm, Int.add_comm]

theorem mul_zero_left (s t : Bool) (n : Nat) (f : Int) :
    mul (zero s) (.fin t n f) = zero (xor s t) := by
  simp [mul, zero, round]

theorem mul_zero_right (s t : Bool) (m : Nat) (e : Int) :
    mul (.fin s m e) (zero t) = zero (xor s t) := by
  simp [mul, zero, round]

theorem sub_zero_zero (s t : Bool) : sub (zero s) (zero t) = zero (s && !t) := by
  cases s <;> cases t <;> rfl

/-- A finite difference of a datum with itself is `+0`. -/
theorem sub_self_of_isFinite {a : Double} (h : (sub a a).isFinite = true) :
    sub a a = zero false := by
  obtain ⟨s, m, e, rfl⟩ := isFinite_iff.mp (isFinite_sub h).1
  exact sub_self_fin s m e

/-- With `a = +0` and `c = +0`, the cross term `a * b - c * d` is a zero as soon as the two
products are finite. -/
theorem cross_zero_left {b d : Double}
    (h1 : (mul (zero false) b).isFinite = true) (h2 : (mul (zero false) d).isFinite = true) :
    ∃ z, sub (mul (zero false) b) (mul (zero false) d) = zero z := by
  obtain ⟨t, n, f, rfl⟩ := isFinite_iff.mp (isFinite_mul h1).2
  obtain ⟨t2, n2, f2, rfl⟩ := isFinite_iff.mp (isFinite_mul h2).2
  exact ⟨_, by rw [mul_zero_left, mul_zero_left, sub_zero_zero]⟩

/-- With `b = +0` and `d = +0`, the cross term `a * b - c * d` is a zero as soon as the two
products are finite. -/
theorem cross_zero_right {a c : Double}
    (h1 : (mul a (zero false)).isFinite = true) (h2 : (mul c (zero false)).isFinite = true) :
    ∃ z, sub (mul a (zero false)) (mul c (zero false)) = zero z := by
  obtain ⟨t, n, f, rfl⟩ := isFinite_iff.mp (isFinite_mul h1).1
  obtain ⟨t2, n2, f2, rfl⟩ := isFinite_iff.mp (isFinite_mul h2).1
  exact ⟨_, by rw [mul_zero_right, mul_zero_right, sub_zero_zero]⟩

/-- The cross term `a * b - b * a` is `+0` as soon as the product is finite. -/
theorem cross_swap {a b : Double} (h : (mul a b).isFinite = true) :
    ∃ z, sub (mul a b) (mul b a) = zero z := by
  rw [mul_comm b a]
  have hf : (sub (mul a b) (mul a b)).isFinite = true := by
    obtain ⟨s, m, e, hp⟩ := isFinite_iff.mp h
    rw [hp, sub_self_fin]; rfl
  exact ⟨false, sub_self_of_isFinite hf⟩

end Double

/-! ## Lemmas on `MetricDistortion` -/

namespace MetricDistortion

/-- The closing arithmetic of `triangleArea3D` on three zero cross terms. -/
theorem area_of_zero_cross (L : Libm)
    (hpow : ∀ s, L.pow (Double.zero s) (Double.ofNat 2) = Double.zero false) (z1 z2 z3 : Bool) :
    Double.div
      (Double.sqrt
        (Double.add
          (Double.add (L.pow (Double.zero z1) (Double.ofNat 2))
            (L.pow (Double.zero z2) (Double.ofNat 2)))
          (L.pow (Double.zero z3) (Double.ofNat 2))))
      (Double.ofNat 2) = Double.zero false := by
  rw [hpow, hpow, hpow]
  decide

theorem triangleArea3D_coincident (L : Libm)
    (hpow : ∀ s, L.pow (Double.zero s) (Double.ofNat 2) = Double.zero false)
    (x1 x2 x3 : List Double) (hfin : finiteCrossTerms x1 x2 x3 = true)
    (hco : x1 = x2 ∨ x1 = x3 ∨ x2 = x3) :
    triangleArea3D L x1 x2 x3 = some (Double.zero false) := by
  match x1, x2, x3, hfin, hco with
  | a0 :: a1 :: a2 :: r1, b0 :: b1 :: b2 :: r2, c0 :: c1 :: c2 :: r3, hfin, hco =>
    simp only [finiteCrossTerms, Bool.and_eq_true] at hfin
    obtain ⟨⟨⟨⟨⟨h12, h21⟩, h20⟩, h02⟩, h01⟩, h10⟩ := hfin
    have hval : triangleArea3D L (a0 :: a1 :: a2 :: r1) (b0 :: b1 :: b2 :: r2)
        (c0 :: c1 :: c2 :: r3) = some (Double.div
          (Double.sqrt
            (Double.add
              (Double.add
                (L.pow (Double.sub (Double.mul (Double.sub b1 a1) (Double.sub c2 a2))
                  (Double.mul (Double.sub b2 a2) (Double.sub c1 a1))) (Double.ofNat 2))
                (L.pow (Double.sub (Double.mul (Double.sub b2 a2) (Double.sub c0 a0))
                  (Double.mul (Double.sub b0 a0) (Double.sub c2 a2))) (Double.ofNat 2)))
              (L.pow (Double.sub (Double.mul (Double.sub b0 a0) (Double.sub c1 a1))
                (Double.mul (Double.sub b1 a1) (Double.sub c0 a0))) (Double.ofNat 2))))
          (Double.ofNat 2)) := by
      simp [triangleArea3D]
    rw [hval]
    have key : ∃ z1 z2 z3,
        Double.sub (Double.mul (Double.sub b1 a1) (Double.sub c2 a2))
            (Double.mul (Double.sub b2 a2) (Double.sub c1 a1)) = Double.zero z1 ∧
          Double.sub (Double.mul (Double.sub b2 a2) (Double.sub c0 a0))
            (Double.mul (Double.sub b0 a0) (Double.sub c2 a2)) = Double.zero z2 ∧
          Double.sub (Double.mul (Double.sub b0 a0) (Double.sub c1 a1))
            (Double.mul (Double.sub b1 a1) (Double.sub c0 a0)) = Double.zero z3 := by
      rcases hco with h | h | h
      · simp only [List.cons.injEq] at h
        obtain ⟨rfl, rfl, rfl, -⟩ := h
        have e0 := Double.sub_self_of_isFinite (Double.isFinite_mul h01).1
        have e1 := Double.sub_self_of_isFinite (Double.isFinite_mul h12).1
        have e2 := Double.sub_self_of_isFinite (Double.isFinite_mul h21).1
        simp only [e0, e1, e2] at h12 h21 h20 h02 h01 h10 ⊢
        obtain ⟨z1, hz1⟩ := Double.cross_zero_left h12 h21
        obtain ⟨z2, hz2⟩ := Double.cross_zero_left h20 h02
        obtain ⟨z3, hz3⟩ := Double.cross_zero_left h01 h10
        exact ⟨z1, z2, z3, hz1, hz2, hz3⟩
      · simp only [List.cons.injEq] at h
        obtain ⟨rfl, rfl, rfl, -⟩ := h
        have e0 := Double.sub_self_of_isFinite (Double.isFinite_mul h10).2
        have e1 := Double.sub_self_of_isFinite (Double.isFinite_mul h21).2
        have e2 := Double.sub_self_of_isFinite (Double.isFinite_mul h12).2
        simp only [e0, e1, e2] at h12 h21 h20 h02 h01 h10 ⊢
        obtain ⟨z1, hz1⟩ := Double.cross_zero_right h12 h21
        obtain ⟨z2, hz2⟩ := Double.cross_zero_right h20 h02
        obtain ⟨z3, hz3⟩ := Double.cross_zero_right h01 h10
        exact ⟨z1, z2, z3, hz1, hz2, hz3⟩
      · simp only [List.cons.injEq] at h
        obtain ⟨rfl, rfl, rfl, -⟩ := h
        obtain ⟨z1, hz1⟩ := Double.cross_swap h12
        obtain ⟨z2, hz2⟩ := Double.cross_swap h20
        obtain ⟨z3, hz3⟩ := Double.cross_swap h01
        exact ⟨z1, z2, z3, hz1, hz2, hz3⟩
    obtain ⟨z1, z2, z3, hz1, hz2, hz3⟩ := key
    rw [hz1, hz2, hz3]
    exact congrArg some (area_of_zero_cross L hpow z1 z2 z3)

theorem vecAt_isSome {α : Type} (v : List α) (i : Int) (h0 : 0 ≤ i) (h1 : i < (v.length : Int)) :
    ∃ x, vecAt v i = some x ∧ x ∈ v := by
  have hlt : i.toNat < v.length := by omega
  refine ⟨v[i.toNat], ?_, List.getElem_mem _⟩
  simp only [vecAt, if_neg (not_lt.mpr h0), List.getElem?_eq_getElem hlt]

theorem matAt_isSome (pts dm : List (List Double)) (i j : Int)
    (hi : 0 ≤ i ∧ i < (pts.length : Int)) (hj : 0 ≤ j ∧ j < (pts.length : Int))
    (hlen : pts.length ≤ dm.length) (hrow : ∀ row ∈ dm, pts.length ≤ row.length) :
    ∃ d, matAt dm i j = some d := by
  obtain ⟨row, hrow1, hmem⟩ := vecAt_isSome dm i hi.1 (by omega)
  have := hrow row hmem
  obtain ⟨d, hd, -⟩ := vecAt_isSome row j hj.1 (by omega)
  exact ⟨d, by simp [matAt, hrow1, hd]⟩

theorem triangleArea3D_isSome (L : Libm) (x1 x2 x3 : List Double)
    (h1 : 3 ≤ x1.length) (h2 : 3 ≤ x2.length) (h3 : 3 ≤ x3.length) :
    ∃ a, triangleArea3D L x1 x2 x3 = some a := by
  match x1, x2, x3, h1, h2, h3 with
  | a0 :: a1 :: a2 :: r1, b0 :: b1 :: b2 :: r2, c0 :: c1 :: c2 :: r3, _, _, _ =>
    exact Option.isSome_iff_exists.mp (by simp [triangleArea3D])

theorem areaOfCell_isSome (L : Libm) (pts : List (List Double)) (cells : List (List Int))
    (dm : List (List Double)) (hin : InRange pts cells dm) (c : List Int) (hc : c ∈ cells) :
    ∃ r, areaOfCell L pts dm c = some r := by
  obtain ⟨hp, hcells, hdm⟩ := hin
  have hid := hcells c hc
  apply Option.isSome_iff_exists.mp
  by_cases hlen : c.length < 3 ∨ c.length > 4
  · simp only [areaOfCell, if_pos hlen, Option.isSome_some]
  · rcases c with _ | ⟨i0, _ | ⟨i1, _ | ⟨i2, _ | ⟨i3, _ | ⟨i4, r⟩⟩⟩⟩⟩
    · exact absurd (Or.inl (by simp)) hlen
    · exact absurd (Or.inl (by simp)) hlen
    · exact absurd (Or.inl (by simp)) hlen
    · obtain ⟨x1, h1, m1⟩ := vecAt_isSome pts i0 (hid i0 (by simp)).1 (hid i0 (by simp)).2
      obtain ⟨x2, h2, m2⟩ := vecAt_isSome pts i1 (hid i1 (by simp)).1 (hid i1 (by simp)).2
      obtain ⟨x3, h3, m3⟩ := vecAt_isSome pts i2 (hid i2 (by simp)).1 (hid i2 (by simp)).2
      obtain ⟨a, ha⟩ := triangleArea3D_isSome L x1 x2 x3 (hp _ m1) (hp _ m2) (hp _ m3)
      by_cases hd : dm = []
      · simp [areaOfCell, h1, h2, h3, ha, hd]
      · rcases hdm with hdm | ⟨hl, hrow⟩
        · exact absurd hdm hd
        obtain ⟨d1, hd1⟩ := matAt_isSome pts dm i0 i1 (hid i0 (by simp)) (hid i1 (by simp)) hl hrow
        obtain ⟨d2, hd2⟩ := matAt_isSome pts dm i1 i2 (hid i1 (by simp)) (hid i2 (by simp)) hl hrow
        obtain ⟨d3, hd3⟩ := matAt_isSome pts dm i2 i1 (hid i2 (by simp)) (hid i1 (by simp)) hl hrow
        simp [areaOfCell, h1, h2, h3, ha, hd, hd1, hd2, hd3]
    · obtain ⟨x1, h1, m1⟩ := vecAt_isSome pts i0 (hid i0 (by simp)).1 (hid i0 (by simp)).2
      obtain ⟨x2, h2, m2⟩ := vecAt_isSome pts i1 (hid i1 (by simp)).1 (hid i1 (by simp)).2
      obtain ⟨x3, h3, m3⟩ := vecAt_isSome pts i2 (hid i2 (by simp)).1 (hid i2 (by simp)).2
      obtain ⟨x4, h4, m4⟩ := vecAt_isSome pts i3 (hid i3 (by simp)).1 (hid i3 (by simp)).2
      obtain ⟨a, ha⟩ := triangleArea3D_isSome L x1 x2 x3 (hp _ m1) (hp _ m2) (hp _ m3)
      obtain ⟨b, hb⟩ := triangleArea3D_isSome L x2 x3 x4 (hp _ m2) (hp _ m3) (hp _ m4)
      by_cases hd : dm = []
      · simp [areaOfCell, h1, h2, h3, h4, ha, hb, hd]
      · rcases hdm with hdm | ⟨hl, hrow⟩
        · exact absurd hdm hd
        obtain ⟨d1, hd1⟩ := matAt_isSome pts dm i0 i1 (hid i0 (by simp)) (hid i1 (by simp)) hl hrow
        obtain ⟨d2, hd2⟩ := matAt_isSome pts dm i1 i2 (hid i1 (by simp)) (hid i2 (by simp)) hl hrow
        obtain ⟨d3, hd3⟩ := matAt_isSome pts dm i2 i1 (hid i2 (by simp)) (hid i1 (by simp)) hl hrow
        obtain ⟨d4, hd4⟩ := matAt_isSome pts dm i2 i3 (hid i2 (by simp)) (hid i3 (by simp)) hl hrow
        obtain ⟨d5, hd5⟩ := matAt_isSome pts dm i3 i1 (hid i3 (by simp)) (hid i1 (by simp)) hl hrow
        simp [areaOfCell, h1, h2, h3, h4, ha, hb, hd, hd1, hd2, hd3, hd4, hd5]
    · exact absurd (Or.inr (by simp)) hlen

theorem areaOfCell_triangle_fst (L : Libm) (pts dm : List (List Double)) (i0 i1 i2 : Int)
    (x1 x2 x3 : List Double) (r : Double × Double × Double)
    (h0 : vecAt pts i0 = some x1) (h1 : vecAt pts i1 = some x2) (h2 : vecAt pts i2 = some x3)
    (hr : areaOfCell L pts dm [i0, i1, i2] = some r) :
    triangleArea3D L x1 x2 x3 = some r.1 := by
  simp only [areaOfCell, List.length_cons, List.length_nil] at hr
  simp [h0, h1, h2] at hr
  cases ht : triangleArea3D L x1 x2 x3 with
  | none => simp [ht] at hr
  | some a =>
    by_cases hd : dm = []
    · simp [ht, hd] at hr
      rw [← hr]
    · simp only [ht, hd, if_false, Option.some_bind, Option.bind_eq_some] at hr
      obtain ⟨y, -, hy⟩ := hr
      simp only [Option.some.injEq] at hy
      rw [← hy]

theorem mapM_option_getElem? {α β : Type} (f : α → Option β) (l : List α)
    (hall : ∀ a ∈ l, ∃ b, f a = some b) :
    ∃ rows : List β, l.mapM f = some rows ∧ ∀ i : Nat, rows[i]? = (l[i]?).bind f := by
  induction l with
  | nil => exact ⟨[], rfl, fun i => by simp⟩
  | cons a l ih =>
    obtain ⟨b, hb⟩ := hall a (by simp)
    obtain ⟨rows, hrows, hget⟩ := ih (fun x hx => hall x (by simp [hx]))
    refine ⟨b :: rows, by rw [List.mapM_cons, hb, hrows]; rfl, fun i => ?_⟩
    cases i with
    | zero => simp [hb]
    | succ i => simpa using hget i

end MetricDistortion

/-! ## The two epsilon floors -/

/-- The literals `1e-8` and `5e-5` as binary64: `0x1.5798ee2308c3ap-27` and
`0x1.a36e2eb1c432dp-15`. -/
theorem PersistenceDiagramDistanceMatrix.lit_values :
    PersistenceDiagramDistanceMatrix.lit_1e_8 = Double.fin false 6044629098073146 (-79) ∧
      PersistenceDiagramDistanceMatrix.lit_5e_5 = Double.fin false 7378697629483821 (-67) := by
  decide

/-! ## Lemmas on the assembled distance matrix -/

theorem entry_getDiagramsDistMat {X : ExternalTypes} {D : Type}
    (computeDistance : Bool → Bool → Bool → D → D → Double)
    (self : PersistenceDiagramDistanceMatrix X) (inputs : List D) (i j : Nat) :
    entry (self.getDiagramsDistMat computeDistance inputs) i j =
      (inputs[i]?).bind fun a => (inputs[j]?).map fun b =>
        if i = j then Double.zero false
        else if i < j then computeDistance self.do_min_ self.do_sad_ self.do_max_ a b
        else computeDistance self.do_min_ self.do_sad_ self.do_max_ b a := by
  unfold entry PersistenceDiagramDistanceMatrix.getDiagramsDistMat
  rw [List.getElem?_map, List.getElem?_enum]
  cases inputs[i]? with
  | none => rfl
  | some a =>
    simp only [Option.map_some', Option.some_bind, List.getElem?_map, List.getElem?_enum]
    cases inputs[j]? <;> rfl

/-! ## Lemmas on sequences of setter calls -/

namespace PersistenceDiagramDistanceMatrix

variable {X : ExternalTypes}

theorem setWasserstein_frame (w : String) (self : PersistenceDiagramDistanceMatrix X) :
    (setWasserstein w self).2.UseDeltaLim_ = self.UseDeltaLim_ ∧
      (setWasserstein w self).2.epsilon_min_ = self.epsilon_min_ := by
  unfold setWasserstein
  split_ifs
  · exact ⟨rfl, rfl⟩
  · cases stoi w <;> exact ⟨rfl, rfl⟩

/-- Every call other than `setUseDeltaLim` leaves `UseDeltaLim_` and `epsilon_min_` alone. -/
theorem call_frame (self : PersistenceDiagramDistanceMatrix X) (c : SetterCall)
    (hc : c.isSetUseDeltaLim = false) :
    (self.call c).UseDeltaLim_ = self.UseDeltaLim_ ∧
      (self.call c).epsilon_min_ = self.epsilon_min_ := by
  cases c <;> first
    | exact ⟨rfl, rfl⟩
    | exact setWasserstein_frame _ self
    | simp [SetterCall.isSetUseDeltaLim] at hc

/-- Every call preserves the pairing, and `setUseDeltaLim` establishes it. -/
theorem call_epsilonPaired (self : PersistenceDiagramDistanceMatrix X) (c : SetterCall)
    (h : EpsilonPaired self ∨ c.isSetUseDeltaLim = true) : EpsilonPaired (self.call c) := by
  cases hc : c.isSetUseDeltaLim with
  | true =>
    cases c <;> first
      | (simp [SetterCall.isSetUseDeltaLim] at hc; done)
      | (rename_i b; cases b <;> rfl)
  | false =>
    obtain ⟨h1, h2⟩ := call_frame self c hc
    rcases h with h | h
    · unfold EpsilonPaired at *
      rw [h1, h2, h]
    · rw [hc] at h; exact absurd h (by decide)

theorem calls_epsilonPaired (self : PersistenceDiagramDistanceMatrix X) (cs : List SetterCall)
    (h : EpsilonPaired self) : EpsilonPaired (self.calls cs) := by
  induction cs generalizing self with
  | nil => exact h
  | cons c cs ih => exact ih (self.call c) (call_epsilonPaired self c (Or.inl h))

/-- Once `setUseDeltaLim` has been called, the pairing holds whatever was and is called. -/
theorem calls_after_setUseDeltaLim (self : PersistenceDiagramDistanceMatrix X)
    (before after : List SetterCall) (b : Bool) :
    EpsilonPaired (self.calls (before ++ SetterCall.setUseDeltaLim b :: after)) := by
  unfold calls
  rw [List.foldl_append, List.foldl_cons]
  exact calls_epsilonPaired _ after (call_epsilonPaired _ _ (Or.inr rfl))

/-- Until `setUseDeltaLim` is called, the object keeps the constructor's `UseDeltaLim_` and
`epsilon_min_`. -/
theorem calls_without_setUseDeltaLim (self : PersistenceDiagramDistanceMatrix X)
    (cs : List SetterCall) (h : ∀ c ∈ cs, c.isSetUseDeltaLim = false) :
    (self.calls cs).UseDeltaLim_ = self.UseDeltaLim_ ∧
      (self.calls cs).epsilon_min_ = self.epsilon_min_ := by
  induction cs generalizing self with
  | nil => exact ⟨rfl, rfl⟩
  | cons c cs ih =>
    obtain ⟨h1, h2⟩ := call_frame self c (h c (by simp))
    obtain ⟨h3, h4⟩ := ih (self.call c) (fun x hx => h x (by simp [hx]))
    exact ⟨h3.trans h1, h4.trans h2⟩

end PersistenceDiagramDistanceMatrix

/-! ## Claims on the configuration surface -/

namespace PersistenceDiagramDistanceMatrix

variable {X : ExternalTypes}

/-- C2: `setWasserstein("inf")` returns normally and stores the sentinel `-1`; for every string
that is a decimal integer literal whose value fits an `int`, `setWasserstein` returns normally
and stores that value. In both cases the object afterwards differs from the one before in
`wasserstein_` only. -/
theorem setWasserstein_inf_or_literal (self : PersistenceDiagramDistanceMatrix X) (w : String)
    (hlit : isIntegerLiteral w.data = true) (hrange : inIntRange (literalValue w.data)) :
    setWasserstein "inf" self = (.ok (), { self with wasserstein_ := -1 }) ∧
      setWasserstein w self = (.ok (), { self with wasserstein_ := literalValue w.data }) := by
  refine ⟨rfl, ?_⟩
  have hne : w ≠ "inf" := by
    rintro rfl
    exact absurd hlit (by decide)
  obtain ⟨hd, hv⟩ := leadingValue_of_literal w.data hlit
  unfold setWasserstein
  rw [if_neg hne, stoi_eq, dropWhile_isspace_of_literal _ hlit, if_neg hd, hv, if_pos hrange]

/-- Witness for `setWasserstein_inf_or_literal`: the literal `"-12"`. -/
theorem setWasserstein_inf_or_literal_witness :
    isIntegerLiteral "-12".data = true ∧ inIntRange (literalValue "-12".data) ∧
      setWasserstein "inf" sample = (.ok (), { sample with wasserstein_ := -1 }) ∧
      setWasserstein "-12" sample = (.ok (), { sample with wasserstein_ := -12 }) :=
  ⟨by decide, by decide,
    (setWasserstein_inf_or_literal sample "-12" (by decide) (by decide)).1,
    (setWasserstein_inf_or_literal sample "-12" (by decide) (by decide)).2⟩

/-- C3, as stated, fails: `"2abc"` and `"2.5"` are neither `"inf"` nor integer literals, yet
`setWasserstein` returns normally on both and stores `2`. -/
theorem setWasserstein_accepts_trailing_garbage :
    "2abc" ≠ "inf" ∧ isIntegerLiteral "2abc".data = false ∧
      setWasserstein "2abc" sample = (.ok (), { sample with wasserstein_ := 2 }) ∧
      "2.5" ≠ "inf" ∧ isIntegerLiteral "2.5".data = false ∧
      setWasserstein "2.5" sample = (.ok (), { sample with wasserstein_ := 2 }) :=
  ⟨by decide, by decide, by rfl, by decide, by decide, by rfl⟩

/-- C3, amended: for a string other than `"inf"`, let `body` be what follows the leading white
space and `digits` the longest run of decimal digits after an optional sign of `body`. When
`digits` is empty the call throws `std::invalid_argument`; when the signed value of `digits`
does not fit an `int` it throws `std::out_of_range`; in both cases the object is unchanged.
Otherwise the call returns normally and stores that value, whatever follows the digits. -/
theorem setWasserstein_outcome (self : PersistenceDiagramDistanceMatrix X) (w : String)
    (hw : w ≠ "inf") :
    setWasserstein w self =
      if (afterSign (w.data.dropWhile isspace)).takeWhile isdigit = [] then
        (.error .invalid_argument, self)
      else if inIntRange (leadingValue (w.data.dropWhile isspace)) then
        (.ok (), { self with wasserstein_ := leadingValue (w.data.dropWhile isspace) })
      else (.error .out_of_range, self) := by
  unfold setWasserstein
  rw [if_neg hw, stoi_eq]
  split_ifs <;> rfl

/-- Witness for `setWasserstein_outcome`: `"abc"` and `""` throw `std::invalid_argument`,
`"99999999999"` throws `std::out_of_range`, `" +7x"` stores `7`. -/
theorem setWasserstein_outcome_witness :
    setWasserstein "abc" sample = (.error .invalid_argument, sample) ∧
      setWasserstein "" sample = (.error .invalid_argument, sample) ∧
      setWasserstein "99999999999" sample = (.error .out_of_range, sample) ∧
      setWasserstein " +7x" sample = (.ok (), { sample with wasserstein_ := 7 }) :=
  ⟨(setWasserstein_outcome sample "abc" (by decide)).trans (by rfl),
    (setWasserstein_outcome sample "" (by decide)).trans (by rfl),
    (setWasserstein_outcome sample "99999999999" (by decide)).trans (by rfl),
    (setWasserstein_outcome sample " +7x" (by decide)).trans (by rfl)⟩

/-- C4: `resetDosToOriginalValues()` sets `(do_min_, do_sad_, do_max_)` to
`(original_dos[0], original_dos[1], original_dos[2])` whatever the three flags were, and
changes nothing else (putting the old flags back gives the old object, so `original_dos` and
all other members are untouched). Hence it is idempotent, its result does not depend on the
flags before the call, and when `original_dos` is a snapshot of the flags it undoes any
override `(a, b, c)` of them. -/
theorem resetDosToOriginalValues_restores (self : PersistenceDiagramDistanceMatrix X)
    (a b c : Bool) :
    (resetDosToOriginalValues self).do_min_ = self.original_dos.a0 ∧
      (resetDosToOriginalValues self).do_sad_ = self.original_dos.a1 ∧
      (resetDosToOriginalValues self).do_max_ = self.original_dos.a2 ∧
      { resetDosToOriginalValues self with
          do_min_ := self.do_min_, do_sad_ := self.do_sad_, do_max_ := self.do_max_ } = self ∧
      resetDosToOriginalValues (resetDosToOriginalValues self) = resetDosToOriginalValues self ∧
      resetDosToOriginalValues { self with do_min_ := a, do_sad_ := b, do_max_ := c }
        = resetDosToOriginalValues self ∧
      (self.original_dos = ⟨self.do_min_, self.do_sad_, self.do_max_⟩ →
        resetDosToOriginalValues { self with do_min_ := a, do_sad_ := b, do_max_ := c }
          = self) := by
  refine ⟨rfl, rfl, rfl, rfl, rfl, rfl, ?_⟩
  intro h
  cases self
  simp only at h
  subst h
  rfl

/-- Witness for `resetDosToOriginalValues_restores`: on `sample` the snapshot equals the flags,
and an override to `(true, false, true)` is undone. -/
theorem resetDosToOriginalValues_restores_witness :
    sample.original_dos = ⟨sample.do_min_, sample.do_sad_, sample.do_max_⟩ ∧
      resetDosToOriginalValues { sample with do_min_ := true, do_sad_ := false, do_max_ := true }
        = sample :=
  ⟨by rfl, (resetDosToOriginalValues_restores sample true false true).2.2.2.2.2.2 (by rfl)⟩

/-- C5: for every `b` and every object, `setUseDeltaLim(b)` sets `UseDeltaLim_` to `b` and
`epsilon_min_` to `1e-8` when `b` is true and to `5e-5` when `b` is false, changes no other
member (putting the two old values back gives the old object), and its result does not depend
on the previous values `u`, `e` of `UseDeltaLim_` and `epsilon_min_`. -/
theorem setUseDeltaLim_sets (self : PersistenceDiagramDistanceMatrix X) (b u : Bool)
    (e : Double) :
    (setUseDeltaLim b self).UseDeltaLim_ = b ∧
      (setUseDeltaLim b self).epsilon_min_ = (if b then lit_1e_8 else lit_5e_5) ∧
      { setUseDeltaLim b self with
          UseDeltaLim_ := self.UseDeltaLim_, epsilon_min_ := self.epsilon_min_ } = self ∧
      setUseDeltaLim b { self with UseDeltaLim_ := u, epsilon_min_ := e }
        = setUseDeltaLim b self := by
  cases b <;> exact ⟨rfl, rfl, rfl, rfl⟩

/-- C6, evaluated on the freshly constructed object (whatever the members without initializer
hold): `UseDeltaLim_` is false while `epsilon_min_` is `1e-8`, which is not the `5e-5` that
`setUseDeltaLim(false)` pairs with a false `UseDeltaLim_`. -/
theorem construct_epsilon_min (u : PersistenceDiagramDistanceMatrix X) :
    (construct u).UseDeltaLim_ = false ∧ (construct u).epsilon_min_ = lit_1e_8 ∧
      lit_1e_8 ≠ lit_5e_5 ∧
      (setUseDeltaLim false (construct u)).epsilon_min_ = lit_5e_5 :=
  ⟨rfl, rfl, by decide, rfl⟩

/-- C7, evaluated at `setLambda(2.0)`: the value is stored as is, and `2.0 <= 1` is false. -/
theorem setLambda_stores_out_of_range (self : PersistenceDiagramDistanceMatrix X) :
    (setLambda (Double.ofNat 2) self).lambda_ = Double.ofNat 2 ∧
      Double.le (Double.ofNat 2) (Double.ofNat 1) = false ∧
      ∀ x : Double, (setLambda x self).lambda_ = x :=
  ⟨rfl, by decide, fun _ => rfl⟩

end PersistenceDiagramDistanceMatrix

/-! ## Claim on the distance matrix -/

/-- C1: for every list of input diagrams, every choice of active pair-type families (the three
flags of `self`) and every pairwise evaluator, the matrix returned by `getDiagramsDistMat()` /
`getDistanceMatrix()` is square over the inputs (as many rows as inputs, each as long), entry
`(i, j)` equals entry `(j, i)`, and entry `(i, i)` is `0` for every input index `i`. -/
theorem getDiagramsDistMat_square_symmetric {X : ExternalTypes} {D : Type}
    (computeDistance : Bool → Bool → Bool → D → D → Double)
    (self : PersistenceDiagramDistanceMatrix X) (inputs : List D) (i j : Nat) :
    (self.getDiagramsDistMat computeDistance inputs).map List.length
        = List.replicate inputs.length inputs.length ∧
      self.getDistanceMatrix computeDistance inputs
        = self.getDiagramsDistMat computeDistance inputs ∧
      entry (self.getDiagramsDistMat computeDistance inputs) i j
        = entry (self.getDiagramsDistMat computeDistance inputs) j i ∧
      entry (self.getDiagramsDistMat computeDistance inputs) i i
        = (if i < inputs.length then some (Double.zero false) else none) := by
  refine ⟨?_, rfl, ?_, ?_⟩
  · unfold PersistenceDiagramDistanceMatrix.getDiagramsDistMat
    rw [List.map_map]
    apply List.ext_getElem?
    intro n
    rw [List.getElem?_map, List.getElem?_enum, List.getElem?_replicate]
    by_cases hn : n < inputs.length
    · simp [hn, List.getElem?_eq_getElem hn]
    · simp [hn, List.getElem?_eq_none (Nat.le_of_not_lt hn)]
  · rw [entry_getDiagramsDistMat, entry_getDiagramsDistMat]
    cases inputs[i]? <;> cases inputs[j]? <;> try rfl
    simp only [Option.some_bind, Option.map_some', Option.some.injEq]
    rcases Nat.lt_trichotomy i j with h | h | h
    · rw [if_neg (Nat.ne_of_lt h), if_pos h, if_neg (Nat.ne_of_gt h), if_neg (Nat.lt_asymm h)]
    · subst h; simp
    · rw [if_neg (Nat.ne_of_gt h), if_neg (Nat.lt_asymm h), if_neg (Nat.ne_of_lt h), if_pos h]
  · rw [entry_getDiagramsDistMat]
    by_cases hi : i < inputs.length
    · simp [hi, List.getElem?_eq_getElem hi]
    · simp [hi, List.getElem?_eq_none (Nat.le_of_not_lt hi)]

/-! ## Claims on `MetricDistortion` -/

namespace MetricDistortion

set_option maxRecDepth 100000 in
set_option exponentiation.threshold 5000 in
/-- C8, as stated, fails: in the triangle cell `(0, 1, 2)` over the points `(0,0,0)`, `(0,0,0)`,
`(1,0,0)` the first two vertices coincide, and `computeSurfaceArea` stores `+0`, which is not
NaN, as the cell's `surfaceArea`. -/
theorem surfaceArea_of_degenerate_triangle :
    computeSurfaceArea Libm.squaring
        [[Double.ofNat 0, Double.ofNat 0, Double.ofNat 0],
          [Double.ofNat 0, Double.ofNat 0, Double.ofNat 0],
          [Double.ofNat 1, Double.ofNat 0, Double.ofNat 0]] [[0, 1, 2]] []
      = some { surfaceArea := [Double.zero false], metricArea := [Double.nan],
               ratioArea := [Double.nan] } ∧
      (Double.zero false).isNaN = false := by
  decide

/-- C8, amended: let no read be out of bounds (`InRange`) and let `pow(±0, 2)` be `+0` (C Annex
F). For every triangle cell `(i0, i1, i2)`, at a position `i < dim`, in which two of the three
vertices are the same point, and for which the six products of the cross product are finite,
`computeSurfaceArea` returns and the cell's `surfaceArea` is `+0` (a number, not NaN). -/
theorem computeSurfaceArea_coincident (L : Libm)
    (hpow : ∀ s, L.pow (Double.zero s) (Double.ofNat 2) = Double.zero false)
    (surfacePoints : List (List Double)) (surfaceCells : List (List Int))
    (distanceMatrix : List (List Double))
    (hin : InRange surfacePoints surfaceCells distanceMatrix)
    (i : Nat) (hi : i < toUnsigned surfaceCells.length) (i0 i1 i2 : Int)
    (hcell : surfaceCells[i]? = some [i0, i1, i2]) (x1 x2 x3 : List Double)
    (h0 : vecAt surfacePoints i0 = some x1) (h1 : vecAt surfacePoints i1 = some x2)
    (h2 : vecAt surfacePoints i2 = some x3) (hco : x1 = x2 ∨ x1 = x3 ∨ x2 = x3)
    (hfin : finiteCrossTerms x1 x2 x3 = true) :
    ∃ out, computeSurfaceArea L surfacePoints surfaceCells distanceMatrix = some out ∧
      out.surfaceArea[i]? = some (Double.zero false) := by
  obtain ⟨rows, hrows, hget⟩ := mapM_option_getElem?
    (areaOfCell L surfacePoints distanceMatrix)
    (surfaceCells.take (toUnsigned surfaceCells.length))
    (fun c hc => areaOfCell_isSome L surfacePoints surfaceCells distanceMatrix hin c
      (List.mem_of_mem_take hc))
  refine ⟨{ surfaceArea := rows.map fun r => r.1, metricArea := rows.map fun r => r.2.1,
             ratioArea := rows.map fun r => r.2.2 },
    by simp only [computeSurfaceArea, hrows, Option.map_some'], ?_⟩
  have hc : (surfaceCells.take (toUnsigned surfaceCells.length))[i]? = some [i0, i1, i2] := by
    rw [List.getElem?_take_of_lt hi, hcell]
  have hrow := hget i
  rw [hc, Option.some_bind] at hrow
  obtain ⟨r, hr⟩ := areaOfCell_isSome L surfacePoints surfaceCells distanceMatrix hin
    [i0, i1, i2] (List.getElem?_mem hcell)
  have hfst := areaOfCell_triangle_fst L surfacePoints distanceMatrix i0 i1 i2 x1 x2 x3 r
    h0 h1 h2 hr
  rw [triangleArea3D_coincident L hpow x1 x2 x3 hfin hco] at hfst
  simp only [List.getElem?_map, hrow, hr, Option.map_some']
  exact hfst.symm

set_option maxRecDepth 100000 in
set_option exponentiation.threshold 5000 in
/-- Witness for `computeSurfaceArea_coincident`: the cell `(0, 1, 2)` over `(0,0,0)`, `(0,0,0)`,
`(1,0,0)`, with the stand-in `pow`. -/
theorem computeSurfaceArea_coincident_witness :
    ∃ out, computeSurfaceArea Libm.squaring
        [[Double.zero false, Double.zero false, Double.zero false],
          [Double.zero false, Double.zero false, Double.zero false],
          [Double.ofNat 1, Double.zero false, Double.zero false]] [[0, 1, 2]] [] = some out ∧
      out.surfaceArea[0]? = some (Double.zero false) :=
  computeSurfaceArea_coincident Libm.squaring (by intro s; cases s <;> decide)
    [[Double.zero false, Double.zero false, Double.zero false],
      [Double.zero false, Double.zero false, Double.zero false],
      [Double.ofNat 1, Double.zero false, Double.zero false]] [[0, 1, 2]] []
    (by simp [InRange]) 0 (by decide) 0 1 2 (by rfl)
    [Double.zero false, Double.zero false, Double.zero false]
    [Double.zero false, Double.zero false, Double.zero false]
    [Double.ofNat 1, Double.zero false, Double.zero false]
    (by rfl) (by rfl) (by rfl) (Or.inl rfl) (by decide)

set_option maxRecDepth 100000 in
set_option exponentiation.threshold 5000 in
/-- C9, evaluated on the triangle cell `(0, 1, 2)` with the matrix distances of a 3-4-5
triangle (`d[0][1] = 3`, `d[1][2] = d[2][1] = 4`, `d[2][0] = 5`): the `metricArea` stored is
Heron's formula on `d[0][1]`, `d[1][2]`, `d[2][1]`, that is on sides `3, 4, 4`, and differs
from Heron's formula on `d[0][1]`, `d[1][2]`, `d[2][0]`, which is `6`. -/
theorem computeSurfaceArea_metricArea_345 (L : Libm) :
    (computeSurfaceArea L
        [[Double.ofNat 0, Double.ofNat 0, Double.ofNat 0],
          [Double.ofNat 3, Double.ofNat 0, Double.ofNat 0],
          [Double.ofNat 3, Double.ofNat 4, Double.ofNat 0]] [[0, 1, 2]]
        [[Double.ofNat 0, Double.ofNat 3, Double.ofNat 5],
          [Double.ofNat 3, Double.ofNat 0, Double.ofNat 4],
          [Double.ofNat 5, Double.ofNat 4, Double.ofNat 0]]).map (fun out => out.metricArea)
      = some [triangleAreaFromSides (Double.ofNat 3) (Double.ofNat 4) (Double.ofNat 4)] ∧
      triangleAreaFromSides (Double.ofNat 3) (Double.ofNat 4) (Double.ofNat 5) = Double.ofNat 6 ∧
      triangleAreaFromSides (Double.ofNat 3) (Double.ofNat 4) (Double.ofNat 4)
        = Double.fin false 6262422889310562 (-50) ∧
      Double.fin false 6262422889310562 (-50) ≠ Double.ofNat 6 := by
  refine ⟨by rfl, by decide, by decide, by decide⟩

set_option maxRecDepth 100000 in
set_option exponentiation.threshold 5000 in
/-- C10, evaluated on five points and the single triangle cell `(2, 3, 4)`: the curvature stored
for point `2` (position `0` of the cell) is `2*pi` minus the angle at point `2` between
`surfacePoints[1]` and `surfacePoints[2]`, the positions `(0+1)%3` and `(0+2)%3` taken as point
ids; it does not depend on the points `3` and `4`, the two other vertices of the cell. -/
theorem computeSurfaceCurvature_cell_234 (L : Libm)
    (p0 p1 p2 p3 p4 : Double × Double × Double) :
    (computeSurfaceCurvature L [pt p0, pt p1, pt p2, pt p3, pt p4] [[2, 3, 4]] []).map
        (fun out => out.surfaceCurvature[2]?)
      = some (some (Double.sub (Double.mul (Double.ofNat 2) M_PI)
          (Double.add (Double.zero false)
            (cosineLaw L (l2Distance3 L p2 p1) (l2Distance3 L p2 p2) (l2Distance3 L p1 p2))))) := by
  rfl

end MetricDistortion

end ttk
